import Mathlib

/-!
Verification of the ShadowLink encrypted-vault subsystem.

Shallow embedding of the TypeScript source:
* `src/services/cryptoUtils.ts` — key derivation, AES-GCM encrypt/decrypt, base64.
* `ChatInterface` (two revisions in the repository) — conversation store
  (`saveToStorage`, `loadMessages`) and the TTL expiration sweeper.
* `Settings.tsx` — backup export/import (`handleImportBackup`) and the
  `LockScreen` setup/unlock/reset state machine (`handleAuth`, `handleReset`).
* `Contacts.tsx` (`CryptoTools.handleProcess`) — the ad hoc encrypt/decrypt tool.
* `src/services/firebaseService.ts` (`syncUpToCloud`) — the cloud push document.

External platform primitives are modelled as follows, everything else is a
direct translation of the source:
* Web Crypto PBKDF2 (`deriveKey`) is modelled as the pair (password, salt):
  an idealized, deterministic, collision-free key-derivation function.
* Web Crypto AES-GCM (`subtle.encrypt` / `subtle.decrypt`) is modelled as an
  idealized AEAD: encryption is an injective serialization of
  (key, iv, plaintext) into a byte list, decryption succeeds exactly on a
  genuine encryption whose key and IV match (perfect authentication).
* `TextEncoder` / `TextDecoder` are modelled as the code-point sequence of the
  string (an injective encoding; byte-level UTF-8 is abstracted).
* `window.btoa` / `window.atob` are modelled concretely as standard base64
  with `=` padding (`atob`'s leniency towards whitespace is not modelled; no
  input produced by this program exercises it).
* randomness (`crypto.getRandomValues`) is injected: random salts and IVs are
  explicit parameters of the functions that generate them in the source.
-/

/-! ## JavaScript helpers: truthiness -/

/-- JS truthiness of an optional string (`undefined`/`null` and `""` are falsy). -/
def jsTruthy : Option String → Bool
  | none => false
  | some s => !(s == "")

/-- `m.conversationId || 'global'`: JS `||` falls through on `undefined` and `""`. -/
def jsConvId : Option String → String
  | none => "global"
  | some s => if s == "" then "global" else s

/-! ## Crypto engine (`src/services/cryptoUtils.ts`) -/

/-- Model of a derived `CryptoKey`: Web Crypto PBKDF2 is a deterministic pure
function of (password, salt); idealized as the pair itself (collision-free). -/
structure CryptoKeyM where
  password : String
  salt : List Nat
deriving DecidableEq

/-- `deriveKey(password, salt)`: PBKDF2-SHA256, 100000 iterations, modelled as
the idealized pair. Deterministic and pure, matching the source's contract. -/
def deriveKey (password : String) (salt : List Nat) : CryptoKeyM :=
  ⟨password, salt⟩

/-- `strToBuf`: `new TextEncoder().encode(str)`, modelled as code points. -/
def strToBuf (s : String) : List Nat :=
  s.data.map Char.toNat

/-- `bufToStr`: `new TextDecoder().decode(buf)`, inverse of `strToBuf`. -/
def bufToStr (l : List Nat) : String :=
  ⟨l.map Char.ofNat⟩

/-- Self-delimiting unary byte encoding of a natural number (`n` zeros then a
one); building block of the idealized AES-GCM serialization. -/
def natEnc (n : Nat) : List Nat :=
  List.replicate n 0 ++ [1]

/-- Self-delimiting byte encoding of a list of naturals, terminated by `2`. -/
def listEnc : List Nat → List Nat
  | [] => [2]
  | n :: rest => natEnc n ++ listEnc rest

/-- Parser inverting `natEnc`, returning the value and the remaining input. -/
def parseNat : List Nat → Option (Nat × List Nat)
  | [] => none
  | 1 :: rest => some (0, rest)
  | 0 :: rest => (parseNat rest).map (fun p => (p.1 + 1, p.2))
  | _ => none

/-- Fuelled parser inverting `listEnc`. -/
def parseListF : Nat → List Nat → Option (List Nat × List Nat)
  | 0, _ => none
  | _ + 1, [] => none
  | fuel + 1, x :: rest =>
    if x = 2 then some ([], rest)
    else
      match parseNat (x :: rest) with
      | some (n, r) =>
        match parseListF fuel r with
        | some (ns, r2) => some (n :: ns, r2)
        | none => none
      | none => none

/-- Model of `window.crypto.subtle.encrypt({name: 'AES-GCM', iv}, key, pt)`:
idealized AEAD, an injective serialization of (key, iv, plaintext) into a byte
list (every output byte is `0`, `1` or `2`). -/
def gcmEncrypt (key : CryptoKeyM) (iv pt : List Nat) : List Nat :=
  listEnc (strToBuf key.password) ++ listEnc key.salt ++ listEnc iv ++ listEnc pt

/-- Model of `window.crypto.subtle.decrypt`: succeeds exactly on a genuine
`gcmEncrypt` output whose key and IV match (mandatory tag verification of the
AEAD; failure is the rejected promise of the Web Crypto call). -/
def gcmDecrypt (key : CryptoKeyM) (iv ct : List Nat) : Option (List Nat) :=
  match parseListF (ct.length + 1) ct with
  | none => none
  | some (pw, r1) =>
    match parseListF (r1.length + 1) r1 with
    | none => none
    | some (s, r2) =>
      match parseListF (r2.length + 1) r2 with
      | none => none
      | some (i, r3) =>
        match parseListF (r3.length + 1) r3 with
        | none => none
        | some (p, r4) =>
          if pw = strToBuf key.password ∧ s = key.salt ∧ i = iv ∧ r4 = [] then
            some p
          else none

/-! ## Base64 (`bufToBase64` / `base64ToBuf`, via `btoa` / `atob`) -/

/-- The standard base64 alphabet. -/
def b64Chars : List Char :=
  ['A', 'B', 'C', 'D', 'E', 'F', 'G', 'H', 'I', 'J', 'K', 'L', 'M',
   'N', 'O', 'P', 'Q', 'R', 'S', 'T', 'U', 'V', 'W', 'X', 'Y', 'Z',
   'a', 'b', 'c', 'd', 'e', 'f', 'g', 'h', 'i', 'j', 'k', 'l', 'm',
   'n', 'o', 'p', 'q', 'r', 's', 't', 'u', 'v', 'w', 'x', 'y', 'z',
   '0', '1', '2', '3', '4', '5', '6', '7', '8', '9', '+', '/']

/-- Character for a six-bit group. -/
def sextetChar (n : Nat) : Char :=
  b64Chars.getD n 'A'

/-- Index of a base64 character, `none` for characters outside the alphabet. -/
def charSextet (c : Char) : Option Nat :=
  b64Chars.findIdx? (· = c)

/-- Base64 encoding of a byte list (three bytes to four characters, padded). -/
def b64EncChars : List Nat → List Char
  | [] => []
  | [b1] => [sextetChar (b1 / 4), sextetChar (b1 % 4 * 16), '=', '=']
  | [b1, b2] =>
    [sextetChar (b1 / 4), sextetChar (b1 % 4 * 16 + b2 / 16),
     sextetChar (b2 % 16 * 4), '=']
  | b1 :: b2 :: b3 :: rest =>
    sextetChar (b1 / 4) :: sextetChar (b1 % 4 * 16 + b2 / 16) ::
    sextetChar (b2 % 16 * 4 + b3 / 64) :: sextetChar (b3 % 64) ::
    b64EncChars rest

/-- Base64 decoding; `none` models the `InvalidCharacterError` thrown by
`atob` on malformed input. -/
def b64DecChars : List Char → Option (List Nat)
  | [] => some []
  | c1 :: c2 :: c3 :: c4 :: rest =>
    match charSextet c1, charSextet c2 with
    | some s1, some s2 =>
      if c3 = '=' then
        if c4 = '=' ∧ rest = [] then some [s1 * 4 + s2 / 16] else none
      else
        match charSextet c3 with
        | some s3 =>
          if c4 = '=' then
            if rest = [] then some [s1 * 4 + s2 / 16, s2 % 16 * 16 + s3 / 4]
            else none
          else
            match charSextet c4, b64DecChars rest with
            | some s4, some bs =>
              some ((s1 * 4 + s2 / 16) :: (s2 % 16 * 16 + s3 / 4) ::
                    (s3 % 4 * 64 + s4) :: bs)
            | _, _ => none
        | none => none
    | _, _ => none
  | _ => none

/-- `bufToBase64`: per-byte `String.fromCharCode` loop followed by `btoa`. -/
def bufToBase64 (buf : List Nat) : String :=
  ⟨b64EncChars buf⟩

/-- `base64ToBuf`: `atob` followed by the per-character `charCodeAt` loop;
`none` is the exception `atob` throws on malformed base64. -/
def base64ToBuf (s : String) : Option (List Nat) :=
  b64DecChars s.data

/-! ## `encryptMessage` / `decryptMessage` -/

/-- Result of `encryptMessage`: `{ ciphertext, iv }`, both base64 strings. -/
structure EncResult where
  ciphertext : String
  iv : String
deriving DecidableEq

/-- `encryptMessage(text, key)`: fresh random 12-byte IV (injected here as the
parameter `ivBytes`), AES-GCM encryption of the encoded text, both the
ciphertext and the IV returned base64-encoded. -/
def encryptMessage (text : String) (key : CryptoKeyM) (ivBytes : List Nat) :
    EncResult :=
  ⟨bufToBase64 (gcmEncrypt key ivBytes (strToBuf text)), bufToBase64 ivBytes⟩

/-- The failure modes of the `try` body of `decryptMessage`. -/
inductive DecFailure
  | invalidBase64
  | authFailure
deriving DecidableEq

/-- The `try` body of `decryptMessage`: decode both base64 inputs, AES-GCM
decrypt, decode the plaintext bytes; any step may throw (`Except.error`). -/
def decryptAttempt (ciphertextBase64 ivBase64 : String) (key : CryptoKeyM) :
    Except DecFailure String :=
  match base64ToBuf ciphertextBase64 with
  | none => .error .invalidBase64
  | some ct =>
    match base64ToBuf ivBase64 with
    | none => .error .invalidBase64
    | some iv =>
      match gcmDecrypt key iv ct with
      | none => .error .authFailure
      | some pt => .ok (bufToStr pt)

/-- The placeholder string `decryptMessage` substitutes on any failure. -/
def decryptFailureText : String :=
  "[Encrypted Message - Key Mismatch or Corrupted]"

/-- `decryptMessage(ciphertextBase64, ivBase64, key)`: the `try` body with the
`catch` branch returning the fixed placeholder string. Total: it never throws. -/
def decryptMessage (ciphertextBase64 ivBase64 : String) (key : CryptoKeyM) :
    String :=
  match decryptAttempt ciphertextBase64 ivBase64 key with
  | .ok s => s
  | .error _ => decryptFailureText

/-! ## Data model (`types.ts`) -/

/-- `role ∈ {user, model, system}`. -/
inductive Role
  | user
  | model
  | system
deriving DecidableEq

/-- `type ∈ {text, audio}` (optional on records). -/
inductive MsgType
  | text
  | audio
deriving DecidableEq

/-- `Message`: the in-memory decrypted form. -/
structure Message where
  id : String
  role : Role
  content : String
  type : Option MsgType
  mediaData : Option String
  timestamp : Nat
  expiresAt : Option Nat
  conversationId : Option String
deriving DecidableEq

/-- `StoredMessage`: the persisted, per-field encrypted form. -/
structure StoredMessage where
  id : String
  role : Role
  ciphertext : String
  iv : String
  salt : String
  timestamp : Nat
  type : Option MsgType
  ciphertextMedia : Option String
  ivMedia : Option String
  expiresAt : Option Nat
  conversationId : Option String
deriving DecidableEq

/-- The per-message body of both revisions' `saveToStorage` maps: encrypt the
content (fresh IV `ivContent`), and, for an audio message with truthy
`mediaData`, encrypt the media with its own fresh IV `ivMedia`. The first
`ChatInterface` revision stores no `conversationId` (`conv = none`); the
second stores the saving conversation's id. -/
def encryptStoredMessage (key : CryptoKeyM) (conv : Option String)
    (m : Message) (ivContent ivMedia : List Nat) : StoredMessage :=
  let e := encryptMessage m.content key ivContent
  let med : Option EncResult :=
    if m.type = some MsgType.audio ∧ jsTruthy m.mediaData then
      (m.mediaData.map (fun d => encryptMessage d key ivMedia))
    else none
  { id := m.id
    role := m.role
    ciphertext := e.ciphertext
    iv := e.iv
    salt := ""
    timestamp := m.timestamp
    type := m.type
    ciphertextMedia := med.map EncResult.ciphertext
    ivMedia := med.map EncResult.iv
    expiresAt := m.expiresAt
    conversationId := conv }

/-! ## First `ChatInterface` revision: whole-history save and the TTL sweeper -/

namespace ChatV1

/-- `saveToStorage(msgs)` (first revision): encrypt every message with fresh
IVs (injected per message) and overwrite the whole persisted history. -/
def saveToStorage (key : CryptoKeyM)
    (msgs : List (Message × List Nat × List Nat)) : List StoredMessage :=
  msgs.map (fun t => encryptStoredMessage key none t.1 t.2.1 t.2.2)

/-- The sweeper's interval argument: `setInterval(..., 5000)`. -/
def sweepIntervalMs : Nat := 5000

/-- `m.expiresAt && m.expiresAt <= now` (JS: `0` is falsy). -/
def expiredPred (now : Nat) (m : Message) : Bool :=
  match m.expiresAt with
  | none => false
  | some e => !(e == 0) && decide (e ≤ now)

/-- `!m.expiresAt || m.expiresAt > now` (JS: `0` is falsy). -/
def keepPred (now : Nat) (m : Message) : Bool :=
  match m.expiresAt with
  | none => true
  | some e => (e == 0) || decide (now < e)

/-- One tick of the expiration checker loop: if any in-memory message has
expired, filter the in-memory view to the survivors and persist them via
`syncStorageAfterPrune` (= `saveToStorage`, a whole-history overwrite);
otherwise both the view and the storage are left untouched. Messages carry
their save-time fresh IVs. -/
def expirationTick (key : CryptoKeyM) (now : Nat)
    (msgs : List (Message × List Nat × List Nat))
    (storage : List StoredMessage) : List Message × List StoredMessage :=
  if (msgs.map (fun t => t.1)).any (expiredPred now) then
    let active := msgs.filter (fun t => keepPred now t.1)
    (active.map (fun t => t.1), saveToStorage key active)
  else
    (msgs.map (fun t => t.1), storage)

end ChatV1

/-! ## Second `ChatInterface` revision: conversation-partitioned store -/

namespace ChatV2

/-- `!m.expiresAt || m.expiresAt > now` on a stored record (JS: `0` falsy). -/
def keepStoredPred (now : Nat) (r : StoredMessage) : Bool :=
  match r.expiresAt with
  | none => true
  | some e => (e == 0) || decide (now < e)

/-- The body of `loadMessages`' decrypting map: decrypt the content (the
placeholder is substituted internally on failure), decrypt the media of a
truthy audio record (the surrounding `try`/`catch` never fires because
`decryptMessage` is total), default the type to `text` and the conversation
to `"global"`. -/
def decryptStored (key : CryptoKeyM) (r : StoredMessage) : Message :=
  { id := r.id
    role := r.role
    content := decryptMessage r.ciphertext r.iv key
    type := some (r.type.getD MsgType.text)
    mediaData :=
      if r.type = some MsgType.audio ∧ jsTruthy r.ciphertextMedia ∧
          jsTruthy r.ivMedia then
        some (decryptMessage (r.ciphertextMedia.getD "") (r.ivMedia.getD "") key)
      else none
    timestamp := r.timestamp
    expiresAt := r.expiresAt
    conversationId := some (jsConvId r.conversationId) }

/-- `loadMessages` (second revision), lines 46–111: read the full persisted
collection, drop expired records globally, write the pruned collection back
if anything was dropped, decrypt every surviving record, and filter to the
requested conversation. Returns (view, new storage, whether a prune
write-back happened). The greeting injected into an empty view is UI-only
and not part of the store contract modelled here. -/
def loadMessages (key : CryptoKeyM) (conversationId : String) (now : Nat)
    (stored : List StoredMessage) :
    List Message × List StoredMessage × Bool :=
  let validMessages := stored.filter (keepStoredPred now)
  let pruned := !(validMessages.length == stored.length)
  let storage2 := if pruned then validMessages else stored
  let allDecrypted := validMessages.map (decryptStored key)
  let filtered :=
    allDecrypted.filter (fun m => m.conversationId == some conversationId)
  (filtered, storage2, pruned)

/-- `saveToStorage(newCurrentMessages)` (second revision), lines 147–192:
read the full persisted collection, drop the records of THIS conversation,
encrypt the new messages with fresh IVs (injected per message), append, and
write the whole collection back. -/
def saveToStorage (key : CryptoKeyM) (conversationId : String)
    (stored : List StoredMessage)
    (newMsgs : List (Message × List Nat × List Nat)) : List StoredMessage :=
  let allEncrypted :=
    stored.filter (fun m => !(jsConvId m.conversationId == conversationId))
  allEncrypted ++
    newMsgs.map (fun t => encryptStoredMessage key (some conversationId) t.1 t.2.1 t.2.2)

end ChatV2

/-! ## Persistent storage and backup import (`Settings.tsx`) -/

/-- The five vault-owned `localStorage` keys (`shadowlink_salt`, `_profile`,
`_contacts`, `_history`, `_canary`); `none` means the key is absent. -/
structure Storage where
  salt : Option String
  profile : Option String
  contacts : Option String
  history : Option String
  canary : Option String
deriving DecidableEq

/-- The empty storage (after `localStorage.clear()`). -/
def Storage.empty : Storage :=
  ⟨none, none, none, none, none⟩

/-- The parsed `data` section of a backup file. -/
structure BackupData where
  salt : Option String
  profile : Option String
  contacts : Option String
  history : Option String
  canary : Option String
deriving DecidableEq

/-- A parsed backup file: `data` may be absent (`!backup.data`). -/
structure Backup where
  data : Option BackupData
deriving DecidableEq

/-- `handleImportBackup` (parsed-bundle stage), lines 238–275 of
`Settings.tsx`: throw on `!backup.data || !backup.data.salt` (absent or empty
salt) before any write; after the user confirms, `localStorage.clear()` then
restore each truthy field of the bundle. Returns (new storage, success). -/
def handleImportBackup (confirmed : Bool) (backup : Backup) (st : Storage) :
    Storage × Bool :=
  match backup.data with
  | none => (st, false)
  | some d =>
    if jsTruthy d.salt then
      if confirmed then
        ({ salt := if jsTruthy d.salt then d.salt else none
           profile := if jsTruthy d.profile then d.profile else none
           contacts := if jsTruthy d.contacts then d.contacts else none
           history := if jsTruthy d.history then d.history else none
           canary := if jsTruthy d.canary then d.canary else none }, true)
      else (st, false)
    else (st, false)

/-! ## Lock screen (`LockScreen` in `Settings.tsx`) -/

/-- The two lock-screen modes. -/
inductive LockMode
  | LOGIN
  | SETUP
deriving DecidableEq

/-- `LockScreen.handleAuth`: in `SETUP` mode generate a fresh salt (injected
as `newSalt`), persist it base64-encoded, write the canary and unlock with
the derived key; in `LOGIN` mode read the persisted salt — if it is absent,
set an error and switch to `SETUP` (no crash, no write) — otherwise decode it
and unlock with the key derived from the supplied password and that salt
(a corrupt salt makes `atob` throw into the `catch`: error, no state change).
Returns (storage, mode, unlocked key). -/
def handleAuth (mode : LockMode) (password : String) (newSalt : List Nat)
    (st : Storage) : Storage × LockMode × Option CryptoKeyM :=
  if password = "" then (st, mode, none)
  else
    match mode with
    | .SETUP =>
      ({ st with salt := some (bufToBase64 newSalt), canary := some "active" },
       .SETUP, some (deriveKey password newSalt))
    | .LOGIN =>
      match st.salt with
      | none => (st, .SETUP, none)
      | some saltStr =>
        match base64ToBuf saltStr with
        | none => (st, .LOGIN, none)
        | some saltBytes => (st, .LOGIN, some (deriveKey password saltBytes))

/-- `LockScreen.handleReset` (confirmed): `localStorage.clear()` and switch
to `SETUP`. -/
def handleReset : Storage × LockMode :=
  (Storage.empty, .SETUP)

/-! ## Ad hoc crypto tool (`CryptoTools.handleProcess` in `Contacts.tsx`) -/

/-- The two tool tabs. -/
inductive CryptoTab
  | ENCRYPT
  | DECRYPT
deriving DecidableEq

/-- The error string the tool's `catch` branch displays. -/
def cryptoToolError : String :=
  "Error: Operation failed. Check password or format."

/-- JS `text.split(':')` on the underlying character list. -/
def charSplit : List Char → List (List Char)
  | [] => [[]]
  | c :: rest =>
    if c = ':' then [] :: charSplit rest
    else
      match charSplit rest with
      | h :: t => (c :: h) :: t
      | [] => [[c]]

/-- JS `text.split(':')`. -/
def splitColon (s : String) : List String :=
  (charSplit s.data).map (fun l => ⟨l⟩)

/-- `CryptoTools.handleProcess`, lines 233–268 of `Contacts.tsx`: on the
ENCRYPT tab generate a fresh salt, derive a key from the supplied password
and that salt, encrypt, and emit the self-contained token
`sl1:<salt-b64>:<iv-b64>:<ciphertext-b64>`; on the DECRYPT tab split the
token on `:`, check the shape and version tag, decode the carried salt,
re-derive the key and decrypt. Uses no stored vault state. The fresh salt
and IV are injected as parameters; `none` models the early return on empty
input; the `catch` turns the shape/decoding throws into the error string. -/
def handleProcess (tab : CryptoTab) (text password : String)
    (salt iv : List Nat) : Option String :=
  if text = "" ∨ password = "" then none
  else
    match tab with
    | .ENCRYPT =>
      let key := deriveKey password salt
      let e := encryptMessage text key iv
      some ("sl1:" ++ bufToBase64 salt ++ ":" ++ e.iv ++ ":" ++ e.ciphertext)
    | .DECRYPT =>
      let parts := splitColon text
      if parts.length ≠ 4 ∨ parts.getD 0 "" ≠ "sl1" then some cryptoToolError
      else
        match base64ToBuf (parts.getD 1 "") with
        | none => some cryptoToolError
        | some saltBytes =>
          some (decryptMessage (parts.getD 3 "") (parts.getD 2 "")
                  (deriveKey password saltBytes))

/-! ## Cloud push (`syncUpToCloud` in `firebaseService.ts`) -/

/-- A flat JSON value (the payload and document here are one level deep). -/
inductive JVal
  | str (s : String)
  | num (n : Nat)
  | null
deriving DecidableEq

/-- `localStorage.getItem` result as a JSON value (`null` when absent). -/
def optVal : Option String → JVal
  | none => .null
  | some s => .str s

/-- JSON string escaping (quote and backslash). -/
def jsEscapeChar (c : Char) : List Char :=
  if c = '"' ∨ c = '\\' then ['\\', c] else [c]

/-- A JSON string literal. -/
def jsStrLit (s : String) : String :=
  "\"" ++ (⟨s.data.flatMap jsEscapeChar⟩ : String) ++ "\""

/-- Serialization of one field of a flat JSON object. -/
def jsonField : String × JVal → String
  | (k, .str s) => jsStrLit k ++ ":" ++ jsStrLit s
  | (k, .num n) => jsStrLit k ++ ":" ++ toString n
  | (k, .null) => jsStrLit k ++ ":null"

/-- `JSON.stringify` of a flat object given as an ordered field list. -/
def jsonStringifyFlat (fields : List (String × JVal)) : String :=
  "\x7b" ++ String.intercalate "," (fields.map jsonField) ++ "\x7d"

/-- The `backupPayload` object built by `syncUpToCloud`, lines 59–86 of
`firebaseService.ts`: the four raw persisted blobs plus `lastUpdated:
Date.now()`, in source order. It is built from `localStorage` only — the
function has no access to the key or the password. -/
def backupPayloadFields (st : Storage) (now : Nat) : List (String × JVal) :=
  [("profile", optVal st.profile),
   ("contacts", optVal st.contacts),
   ("history", optVal st.history),
   ("salt", optVal st.salt),
   ("lastUpdated", .num now)]

/-- The document `syncUpToCloud` stores under `users/<userId>`:
`setDoc(..., { encryptedData: JSON.stringify(backupPayload) })`. -/
def syncUpToCloudDoc (st : Storage) (now : Nat) : List (String × JVal) :=
  [("encryptedData", .str (jsonStringifyFlat (backupPayloadFields st now)))]

/-! ## Lemmas: the serialization parsers invert the encoders -/

theorem parseNat_natEnc (n : Nat) (rest : List Nat) :
    parseNat (natEnc n ++ rest) = some (n, rest) := by
  induction n with
  | zero => simp [natEnc, parseNat]
  | succ k ih =>
    have h : natEnc (k + 1) ++ rest = 0 :: (natEnc k ++ rest) := by
      simp [natEnc, List.replicate_succ]
    rw [h, parseNat, ih]
    rfl

theorem listEnc_length_gt (l : List Nat) : l.length < (listEnc l).length := by
  induction l with
  | nil => simp [listEnc]
  | cons n ns ih => simp [listEnc, natEnc]; omega

theorem parseListF_listEnc (l : List Nat) :
    ∀ (fuel : Nat) (rest : List Nat), l.length < fuel →
      parseListF fuel (listEnc l ++ rest) = some (l, rest) := by
  induction l with
  | nil =>
    intro fuel rest h
    match fuel, h with
    | f + 1, _ => simp [listEnc, parseListF]
  | cons n ns ih =>
    intro fuel rest h
    match fuel, h with
    | f + 1, h =>
      have hshape : listEnc (n :: ns) ++ rest = natEnc n ++ (listEnc ns ++ rest) := by
        simp [listEnc]
      rcases n with _ | m
      · have h1 : natEnc 0 ++ (listEnc ns ++ rest) = 1 :: (listEnc ns ++ rest) := by
          simp [natEnc]
        rw [hshape, h1, parseListF]
        have hp : parseNat (1 :: (listEnc ns ++ rest)) = some (0, listEnc ns ++ rest) := by
          have := parseNat_natEnc 0 (listEnc ns ++ rest)
          simpa [natEnc] using this
        simp only [hp]
        rw [ih f rest (by simpa using Nat.lt_of_succ_lt_succ h)]
        norm_num
      · have h1 : natEnc (m + 1) ++ (listEnc ns ++ rest)
            = 0 :: (natEnc m ++ (listEnc ns ++ rest)) := by
          simp [natEnc, List.replicate_succ]
        rw [hshape, h1, parseListF]
        have hp : parseNat (0 :: (natEnc m ++ (listEnc ns ++ rest)))
            = some (m + 1, listEnc ns ++ rest) := by
          have := parseNat_natEnc (m + 1) (listEnc ns ++ rest)
          have h2 : natEnc (m + 1) ++ (listEnc ns ++ rest)
              = 0 :: (natEnc m ++ (listEnc ns ++ rest)) := h1
          rw [h2] at this
          exact this
        simp only [hp]
        rw [ih f rest (by simpa using Nat.lt_of_succ_lt_succ h)]
        norm_num

theorem gcmDecrypt_gcmEncrypt (key : CryptoKeyM) (iv pt : List Nat) :
    gcmDecrypt key iv (gcmEncrypt key iv pt) = some pt := by
  unfold gcmEncrypt gcmDecrypt
  have e1 : listEnc (strToBuf key.password) ++ listEnc key.salt ++ listEnc iv ++ listEnc pt
      = listEnc (strToBuf key.password) ++ (listEnc key.salt ++ (listEnc iv ++ (listEnc pt ++ []))) := by
    simp
  rw [e1]
  rw [parseListF_listEnc (strToBuf key.password) _ _ (by
    have h1 := listEnc_length_gt (strToBuf key.password)
    simp only [List.length_append]
    omega)]
  dsimp only
  rw [parseListF_listEnc key.salt _ _ (by
    have h1 := listEnc_length_gt key.salt
    simp only [List.length_append]
    omega)]
  dsimp only
  rw [parseListF_listEnc iv _ _ (by
    have h1 := listEnc_length_gt iv
    simp only [List.length_append]
    omega)]
  dsimp only
  rw [parseListF_listEnc pt _ _ (by
    have h1 := listEnc_length_gt pt
    simp only [List.length_append]
    omega)]
  simp

/-! ## Lemmas: base64 decoding inverts base64 encoding -/

theorem charSextet_sextetChar : ∀ n : Nat, n < 64 → charSextet (sextetChar n) = some n := by
  decide

theorem sextetChar_ne_pad : ∀ n : Nat, n < 64 → sextetChar n ≠ '=' := by
  decide

theorem sextetChar_ne_colon (n : Nat) : sextetChar n ≠ ':' := by
  rcases Nat.lt_or_ge n 64 with h | h
  · exact (by decide : ∀ m : Nat, m < 64 → sextetChar m ≠ ':') n h
  · unfold sextetChar
    rw [List.getD_eq_default]
    · decide
    · have hl : b64Chars.length = 64 := by decide
      omega

theorem b64DecChars_b64EncChars (l : List Nat) (h : ∀ b ∈ l, b < 256) :
    b64DecChars (b64EncChars l) = some l := by
  induction l using b64EncChars.induct with
  | case1 => simp [b64EncChars, b64DecChars]
  | case2 b1 =>
    have hb1 : b1 < 256 := h b1 (by simp)
    rw [b64EncChars, b64DecChars]
    rw [charSextet_sextetChar (b1 / 4) (by omega),
        charSextet_sextetChar (b1 % 4 * 16) (by omega)]
    simp only [if_pos rfl]
    norm_num
    omega
  | case3 b1 b2 =>
    have hb1 : b1 < 256 := h b1 (by simp)
    have hb2 : b2 < 256 := h b2 (by simp)
    rw [b64EncChars, b64DecChars]
    rw [charSextet_sextetChar (b1 / 4) (by omega),
        charSextet_sextetChar (b1 % 4 * 16 + b2 / 16) (by omega)]
    dsimp only
    rw [if_neg (sextetChar_ne_pad (b2 % 16 * 4) (by omega))]
    rw [charSextet_sextetChar (b2 % 16 * 4) (by omega)]
    dsimp only
    norm_num
    constructor <;> omega
  | case4 b1 b2 b3 rest ih =>
    have hb1 : b1 < 256 := h b1 (by simp)
    have hb2 : b2 < 256 := h b2 (by simp)
    have hb3 : b3 < 256 := h b3 (by simp)
    have hrest : ∀ b ∈ rest, b < 256 := fun b hb => h b (by simp [hb])
    rw [b64EncChars, b64DecChars]
    rw [charSextet_sextetChar (b1 / 4) (by omega),
        charSextet_sextetChar (b1 % 4 * 16 + b2 / 16) (by omega)]
    dsimp only
    rw [if_neg (sextetChar_ne_pad (b2 % 16 * 4 + b3 / 64) (by omega))]
    rw [charSextet_sextetChar (b2 % 16 * 4 + b3 / 64) (by omega)]
    dsimp only
    rw [if_neg (sextetChar_ne_pad (b3 % 64) (by omega))]
    rw [charSextet_sextetChar (b3 % 64) (by omega), ih hrest]
    dsimp only
    norm_num
    refine ⟨by omega, by omega, by omega⟩

theorem base64ToBuf_bufToBase64 (l : List Nat) (h : ∀ b ∈ l, b < 256) :
    base64ToBuf (bufToBase64 l) = some l :=
  b64DecChars_b64EncChars l h

theorem bufToStr_strToBuf (s : String) : bufToStr (strToBuf s) = s := by
  unfold bufToStr strToBuf
  rw [List.map_map]
  have : (Char.ofNat ∘ Char.toNat) = id := by
    funext c
    exact Char.ofNat_toNat c
  rw [this, List.map_id]

theorem natEnc_mem_le (n : Nat) : ∀ x ∈ natEnc n, x ≤ 1 := by
  intro x hx
  unfold natEnc at hx
  rcases List.mem_append.mp hx with h | h
  · rw [List.eq_of_mem_replicate h]; omega
  · simp at h; omega

theorem listEnc_mem_le (l : List Nat) : ∀ x ∈ listEnc l, x ≤ 2 := by
  induction l with
  | nil => intro x hx; simp [listEnc] at hx; omega
  | cons n ns ih =>
    intro x hx
    rcases List.mem_append.mp (by simpa [listEnc] using hx) with h | h
    · have := natEnc_mem_le n x h; omega
    · exact ih x h

theorem gcmEncrypt_mem_lt (key : CryptoKeyM) (iv pt : List Nat) :
    ∀ x ∈ gcmEncrypt key iv pt, x < 256 := by
  intro x hx
  unfold gcmEncrypt at hx
  simp only [List.append_assoc, List.mem_append] at hx
  rcases hx with h | h | h | h
  · have h2 := listEnc_mem_le (strToBuf key.password) x h
    omega
  · have h2 := listEnc_mem_le key.salt x h
    omega
  · have h2 := listEnc_mem_le iv x h
    omega
  · have h2 := listEnc_mem_le pt x h
    omega

/-- The encrypt/decrypt round trip of the crypto engine, shared by the
round-trip claims. -/
theorem decryptMessage_encryptMessage (P : String) (key : CryptoKeyM)
    (iv : List Nat) (hiv : ∀ b ∈ iv, b < 256) :
    decryptMessage (encryptMessage P key iv).ciphertext
      (encryptMessage P key iv).iv key = P := by
  unfold decryptMessage decryptAttempt encryptMessage
  dsimp only
  rw [base64ToBuf_bufToBase64 _ (gcmEncrypt_mem_lt key iv (strToBuf P)),
      base64ToBuf_bufToBase64 iv hiv]
  dsimp only
  rw [gcmDecrypt_gcmEncrypt]
  dsimp only
  exact bufToStr_strToBuf P

/-! ## Claims -/

/-- C1: for every plaintext string `P` and every derived AES-GCM key `K`,
`decryptMessage` applied to the ciphertext and IV produced by
`encryptMessage(P, K)`, with the same key `K`, returns `P`. The fresh random
IV generated inside `encryptMessage` is injected as the byte list `iv`. -/
theorem C1_encrypt_decrypt_round_trip (P : String) (key : CryptoKeyM)
    (iv : List Nat) (hiv : ∀ b ∈ iv, b < 256) :
    decryptMessage (encryptMessage P key iv).ciphertext
      (encryptMessage P key iv).iv key = P :=
  decryptMessage_encryptMessage P key iv hiv

theorem C1_encrypt_decrypt_round_trip_witness :
    decryptMessage
        (encryptMessage "hi" (deriveKey "pw" [7, 7])
          [0, 1, 2, 3, 4, 5, 6, 7, 8, 9, 10, 11]).ciphertext
        (encryptMessage "hi" (deriveKey "pw" [7, 7])
          [0, 1, 2, 3, 4, 5, 6, 7, 8, 9, 10, 11]).iv
        (deriveKey "pw" [7, 7]) = "hi" :=
  C1_encrypt_decrypt_round_trip "hi" (deriveKey "pw" [7, 7])
    [0, 1, 2, 3, 4, 5, 6, 7, 8, 9, 10, 11] (by decide)

/-- C2: the claim demands that `decryptMessage` signal a distinct, explicit
failure value, never a value indistinguishable from successfully decrypted
plaintext. The code instead returns the plain string
`"[Encrypted Message - Key Mismatch or Corrupted]"` on every failure — and
the very same value is returned as the successful decryption of a ciphertext
whose plaintext is that placeholder text, so the failure value is
indistinguishable from legitimate plaintext. -/
theorem C2_failure_value_collides_with_plaintext :
    decryptMessage "%" "%" (deriveKey "pw" [7, 7]) = decryptFailureText ∧
    decryptMessage
        (encryptMessage decryptFailureText (deriveKey "pw" [7, 7])
          [0, 1, 2, 3, 4, 5, 6, 7, 8, 9, 10, 11]).ciphertext
        (encryptMessage decryptFailureText (deriveKey "pw" [7, 7])
          [0, 1, 2, 3, 4, 5, 6, 7, 8, 9, 10, 11]).iv
        (deriveKey "pw" [7, 7]) = decryptFailureText :=
  ⟨by decide,
   decryptMessage_encryptMessage decryptFailureText (deriveKey "pw" [7, 7])
     [0, 1, 2, 3, 4, 5, 6, 7, 8, 9, 10, 11] (by decide)⟩

/-- C3: saving a message list to conversation `A` leaves every previously
stored record of any other conversation `B` byte-identical in the persisted
collection: the records of `B` in the result are exactly those of the input
(same record values — never re-encrypted), while only records of `A` are
removed and replaced by fresh encryptions. -/
theorem C3_save_preserves_other_conversations (key : CryptoKeyM)
    (A B : String) (stored : List StoredMessage)
    (newMsgs : List (Message × List Nat × List Nat))
    (hA : A ≠ "") (hB : B ≠ A) :
    (ChatV2.saveToStorage key A stored newMsgs).filter
        (fun r => jsConvId r.conversationId == B) =
      stored.filter (fun r => jsConvId r.conversationId == B) := by
  unfold ChatV2.saveToStorage
  rw [List.filter_append]
  have hnew : (newMsgs.map fun t =>
      encryptStoredMessage key (some A) t.1 t.2.1 t.2.2).filter
        (fun r => jsConvId r.conversationId == B) = [] := by
    rw [List.filter_eq_nil_iff]
    intro r hr
    rcases List.mem_map.mp hr with ⟨t, _, rfl⟩
    have hconv : jsConvId (encryptStoredMessage key (some A) t.1 t.2.1 t.2.2).conversationId = A := by
      simp [encryptStoredMessage, jsConvId, hA]
    simp [hconv]
    exact fun h => hB h.symm
  rw [hnew, List.append_nil]
  rw [List.filter_filter]
  apply List.filter_congr
  intro r _
  by_cases h : jsConvId r.conversationId = B
  · simp [h]
    exact fun h2 => hB (h2 ▸ rfl)
  · simp [h]

theorem C3_save_preserves_other_conversations_witness :
    (ChatV2.saveToStorage (deriveKey "pw" [7]) "a"
        [{ id := "r1", role := Role.user, ciphertext := "QQ==", iv := "QQ==",
           salt := "", timestamp := 1, type := none, ciphertextMedia := none,
           ivMedia := none, expiresAt := none, conversationId := some "global" }]
        []).filter (fun r => jsConvId r.conversationId == "global") =
      [{ id := "r1", role := Role.user, ciphertext := "QQ==", iv := "QQ==",
         salt := "", timestamp := 1, type := none, ciphertextMedia := none,
         ivMedia := none, expiresAt := none, conversationId := some "global" }] := by
  have h := C3_save_preserves_other_conversations (deriveKey "pw" [7]) "a" "global"
    [{ id := "r1", role := Role.user, ciphertext := "QQ==", iv := "QQ==",
       salt := "", timestamp := 1, type := none, ciphertextMedia := none,
       ivMedia := none, expiresAt := none, conversationId := some "global" }]
    [] (by decide) (by decide)
  rw [h]
  decide

/-- C4: the parsed-bundle stage of `handleImportBackup` rejects a bundle
whose `data` section or `data.salt` is absent or empty without touching the
prior persisted state; a bundle that passes validation replaces all
persisted blobs with exactly the bundle's truthy fields, independently of
the prior state — every previously persisted key not present in the bundle
is discarded by the preceding `localStorage.clear()`. -/
theorem C4_import_validation_and_replacement (b : Backup) (st : Storage) :
    (b.data = none → handleImportBackup true b st = (st, false)) ∧
    (∀ d, b.data = some d → jsTruthy d.salt = false →
        handleImportBackup true b st = (st, false)) ∧
    (∀ d, b.data = some d → jsTruthy d.salt = true →
        handleImportBackup true b st =
          ({ salt := d.salt
             profile := if jsTruthy d.profile then d.profile else none
             contacts := if jsTruthy d.contacts then d.contacts else none
             history := if jsTruthy d.history then d.history else none
             canary := if jsTruthy d.canary then d.canary else none }, true)) := by
  refine ⟨?_, ?_, ?_⟩
  · intro h
    simp [handleImportBackup, h]
  · intro d hd hsalt
    simp [handleImportBackup, hd, hsalt]
  · intro d hd hsalt
    simp [handleImportBackup, hd, hsalt]

theorem C4_import_validation_and_replacement_witness :
    handleImportBackup true
        ⟨some ⟨some "S", none, none, some "H", none⟩⟩
        ⟨some "oldS", some "oldP", some "oldC", some "oldH", some "oldA"⟩ =
      (⟨some "S", none, none, some "H", none⟩, true) := by
  have h := (C4_import_validation_and_replacement
    ⟨some ⟨some "S", none, none, some "H", none⟩⟩
    ⟨some "oldS", some "oldP", some "oldC", some "oldH", some "oldA"⟩).2.2
    ⟨some "S", none, none, some "H", none⟩ rfl (by decide)
  rw [h]
  decide

theorem keepPred_eq_not_expiredPred (now : Nat) (m : Message) :
    ChatV1.keepPred now m = !ChatV1.expiredPred now m := by
  unfold ChatV1.keepPred ChatV1.expiredPred
  cases m.expiresAt with
  | none => rfl
  | some e =>
    by_cases h0 : e = 0
    · simp [h0]
    · by_cases h : e ≤ now
      · simp [h0, h]
      · simp [h0, h]
        omega

theorem keepStoredPred_encryptStoredMessage (now : Nat) (key : CryptoKeyM)
    (conv : Option String) (m : Message) (ivc ivm : List Nat) :
    ChatV2.keepStoredPred now (encryptStoredMessage key conv m ivc ivm) =
      ChatV1.keepPred now m := by
  simp [ChatV2.keepStoredPred, ChatV1.keepPred, encryptStoredMessage]

/-- C5: the TTL sweeper runs its check on a fixed 5000 ms interval; on a
tick, if any in-memory message has `expiresAt <= now`, every such message is
removed from the in-memory view (and only such messages), and the store's
mutating save is invoked with the surviving set — so every record of the
resulting persisted storage is unexpired; when nothing has expired, neither
the view nor the storage is touched. -/
theorem C5_ttl_sweeper_tick (key : CryptoKeyM) (now : Nat)
    (msgs : List (Message × List Nat × List Nat))
    (storage : List StoredMessage) :
    ChatV1.sweepIntervalMs = 5000 ∧
    (∀ m ∈ (ChatV1.expirationTick key now msgs storage).1,
        ChatV1.expiredPred now m = false) ∧
    (∀ t ∈ msgs, ChatV1.expiredPred now t.1 = false →
        t.1 ∈ (ChatV1.expirationTick key now msgs storage).1) ∧
    ((∃ t ∈ msgs, ChatV1.expiredPred now t.1 = true) →
        (ChatV1.expirationTick key now msgs storage).2 =
          ChatV1.saveToStorage key
            (msgs.filter (fun t => ChatV1.keepPred now t.1)) ∧
        ∀ r ∈ (ChatV1.expirationTick key now msgs storage).2,
          ChatV2.keepStoredPred now r = true) ∧
    ((∀ t ∈ msgs, ChatV1.expiredPred now t.1 = false) →
        (ChatV1.expirationTick key now msgs storage).2 = storage) := by
  refine ⟨rfl, ?_, ?_, ?_, ?_⟩
  · intro m hm
    cases hAny : (msgs.map (fun t => t.1)).any (ChatV1.expiredPred now) with
    | true =>
      simp only [ChatV1.expirationTick, hAny, if_true] at hm
      rcases List.mem_map.mp hm with ⟨t, ht, rfl⟩
      have hk := (List.mem_filter.mp ht).2
      have := keepPred_eq_not_expiredPred now t.1
      rw [this] at hk
      simpa using hk
    | false =>
      simp only [ChatV1.expirationTick, hAny, if_false] at hm
      rw [List.any_eq_false] at hAny
      exact Bool.eq_false_iff.mpr (fun h => hAny m hm (by rw [h]))
  · intro t ht hexp
    cases hAny : (msgs.map (fun t => t.1)).any (ChatV1.expiredPred now) with
    | true =>
      simp only [ChatV1.expirationTick, hAny, if_true]
      refine List.mem_map.mpr ⟨t, List.mem_filter.mpr ⟨ht, ?_⟩, rfl⟩
      rw [keepPred_eq_not_expiredPred, hexp]
      rfl
    | false =>
      simp only [ChatV1.expirationTick, hAny, if_false]
      exact List.mem_map.mpr ⟨t, ht, rfl⟩
  · rintro ⟨t, ht, htexp⟩
    have hAny : (msgs.map (fun t => t.1)).any (ChatV1.expiredPred now) = true :=
      List.any_eq_true.mpr ⟨t.1, List.mem_map.mpr ⟨t, ht, rfl⟩, htexp⟩
    constructor
    · simp only [ChatV1.expirationTick, hAny, if_true]
    · intro r hr
      simp only [ChatV1.expirationTick, hAny, if_true] at hr
      unfold ChatV1.saveToStorage at hr
      rcases List.mem_map.mp hr with ⟨u, hu, rfl⟩
      rw [keepStoredPred_encryptStoredMessage]
      exact (List.mem_filter.mp hu).2
  · intro hall
    have hAny : (msgs.map (fun t => t.1)).any (ChatV1.expiredPred now) = false := by
      rw [List.any_eq_false]
      intro m hm
      rcases List.mem_map.mp hm with ⟨t, ht, rfl⟩
      simp [hall t ht]
    simp [ChatV1.expirationTick, hAny]

theorem C5_ttl_sweeper_tick_witness :
    ({ id := "m2", role := Role.user, content := "keep", type := none,
       mediaData := none, timestamp := 1, expiresAt := some 200,
       conversationId := none } : Message) ∈
      (ChatV1.expirationTick (deriveKey "pw" [7]) 100
        [({ id := "m1", role := Role.user, content := "old", type := none,
            mediaData := none, timestamp := 1, expiresAt := some 50,
            conversationId := none }, [1], [2]),
         ({ id := "m2", role := Role.user, content := "keep", type := none,
            mediaData := none, timestamp := 1, expiresAt := some 200,
            conversationId := none }, [3], [4])] []).1 :=
  (C5_ttl_sweeper_tick (deriveKey "pw" [7]) 100
      [({ id := "m1", role := Role.user, content := "old", type := none,
          mediaData := none, timestamp := 1, expiresAt := some 50,
          conversationId := none }, [1], [2]),
       ({ id := "m2", role := Role.user, content := "keep", type := none,
          mediaData := none, timestamp := 1, expiresAt := some 200,
          conversationId := none }, [3], [4])] []).2.2.1
    ({ id := "m2", role := Role.user, content := "keep", type := none,
       mediaData := none, timestamp := 1, expiresAt := some 200,
       conversationId := none }, [3], [4]) (by decide) (by decide)

theorem loadMessages_eq (key : CryptoKeyM) (A : String) (now : Nat)
    (stored : List StoredMessage) :
    ChatV2.loadMessages key A now stored =
      (((stored.filter (ChatV2.keepStoredPred now)).map
          (ChatV2.decryptStored key)).filter
            (fun m => m.conversationId == some A),
       (if !((stored.filter (ChatV2.keepStoredPred now)).length == stored.length)
          then stored.filter (ChatV2.keepStoredPred now) else stored),
       !((stored.filter (ChatV2.keepStoredPred now)).length == stored.length)) :=
  rfl

/-- C6 counterexample: the claim states that `loadMessages` skips malformed
entries; instead a record whose ciphertext is not even valid base64 is
retained in the load result, its content replaced by the fixed placeholder
string. -/
theorem C6_malformed_record_not_skipped :
    ((ChatV2.loadMessages (deriveKey "pw" [7]) "global" 100
        [{ id := "bad", role := Role.user, ciphertext := ":", iv := "",
           salt := "", timestamp := 5, type := none, ciphertextMedia := none,
           ivMedia := none, expiresAt := none,
           conversationId := none }]).1.map
      (fun m => (m.id, m.content))) = [("bad", decryptFailureText)] := by
  decide

/-- C6 (amended): loading a conversation keeps exactly the unexpired records,
decrypts every surviving record — substituting the fixed placeholder for
fields that fail to decrypt, never skipping the entry or aborting the load —
filters to the requested conversation, and writes the pruned global
collection back exactly when at least one record was dropped by expiry. -/
theorem C6_load_pipeline (key : CryptoKeyM) (A : String) (now : Nat)
    (stored : List StoredMessage) :
    (∀ r ∈ stored, ChatV2.keepStoredPred now r = true →
        jsConvId r.conversationId = A →
        ChatV2.decryptStored key r ∈ (ChatV2.loadMessages key A now stored).1) ∧
    (∀ m ∈ (ChatV2.loadMessages key A now stored).1,
        ∃ r ∈ stored, ChatV2.keepStoredPred now r = true ∧
          jsConvId r.conversationId = A ∧ m = ChatV2.decryptStored key r) ∧
    ((ChatV2.loadMessages key A now stored).2.2 =
        stored.any (fun r => !ChatV2.keepStoredPred now r)) ∧
    ((ChatV2.loadMessages key A now stored).2.2 = true →
        (ChatV2.loadMessages key A now stored).2.1 =
          stored.filter (ChatV2.keepStoredPred now)) ∧
    ((ChatV2.loadMessages key A now stored).2.2 = false →
        (ChatV2.loadMessages key A now stored).2.1 = stored) := by
  rw [loadMessages_eq]
  refine ⟨?_, ?_, ?_, ?_, ?_⟩
  · intro r hr hkeep hconv
    refine List.mem_filter.mpr ⟨List.mem_map.mpr ⟨r, List.mem_filter.mpr ⟨hr, hkeep⟩, rfl⟩, ?_⟩
    have : (ChatV2.decryptStored key r).conversationId = some A := by
      simp [ChatV2.decryptStored, hconv]
    simp [this]
  · intro m hm
    have h1 := List.mem_filter.mp hm
    rcases List.mem_map.mp h1.1 with ⟨r, hr, rfl⟩
    have h2 := List.mem_filter.mp hr
    refine ⟨r, h2.1, h2.2, ?_, rfl⟩
    have h3 := h1.2
    have h4 : (ChatV2.decryptStored key r).conversationId =
        some (jsConvId r.conversationId) := by
      simp [ChatV2.decryptStored]
    rw [h4] at h3
    simpa using h3
  · by_cases hp : ∀ r ∈ stored, ChatV2.keepStoredPred now r = true
    · have h1 : (stored.filter (ChatV2.keepStoredPred now)).length = stored.length :=
        List.filter_length_eq_length.mpr hp
      rw [show ((stored.filter (ChatV2.keepStoredPred now)).length == stored.length)
            = true from beq_iff_eq.mpr h1]
      rw [List.any_eq_false.mpr (fun r hr => by simp [hp r hr])]
      rfl
    · have h2 : (stored.filter (ChatV2.keepStoredPred now)).length ≠ stored.length :=
        fun h => hp (List.filter_length_eq_length.mp h)
      rw [show ((stored.filter (ChatV2.keepStoredPred now)).length == stored.length)
            = false from beq_eq_false_iff_ne.mpr h2]
      rcases not_forall.mp hp with ⟨r, hr⟩
      push_neg at hr
      exact (List.any_eq_true.mpr
        ⟨r, hr.1, by simp [Bool.eq_false_iff.mpr hr.2]⟩).symm
  · intro h
    have hc : (!((stored.filter (ChatV2.keepStoredPred now)).length == stored.length))
        = true := h
    dsimp only
    rw [hc]
    rfl
  · intro h
    have hc : (!((stored.filter (ChatV2.keepStoredPred now)).length == stored.length))
        = false := h
    dsimp only
    rw [hc]
    rfl

theorem C6_load_pipeline_witness :
    ChatV2.decryptStored (deriveKey "pw" [7])
        { id := "ok", role := Role.user, ciphertext := "AA==", iv := "AA==",
          salt := "", timestamp := 5, type := none, ciphertextMedia := none,
          ivMedia := none, expiresAt := some 200, conversationId := none } ∈
      (ChatV2.loadMessages (deriveKey "pw" [7]) "global" 100
        [{ id := "ok", role := Role.user, ciphertext := "AA==", iv := "AA==",
           salt := "", timestamp := 5, type := none, ciphertextMedia := none,
           ivMedia := none, expiresAt := some 200, conversationId := none }]).1 :=
  (C6_load_pipeline (deriveKey "pw" [7]) "global" 100
      [{ id := "ok", role := Role.user, ciphertext := "AA==", iv := "AA==",
         salt := "", timestamp := 5, type := none, ciphertextMedia := none,
         ivMedia := none, expiresAt := some 200, conversationId := none }]).1
    { id := "ok", role := Role.user, ciphertext := "AA==", iv := "AA==",
      salt := "", timestamp := 5, type := none, ciphertextMedia := none,
      ivMedia := none, expiresAt := some 200, conversationId := none }
    (by decide) (by decide) (by decide)

/-- C7: the vault salt is written only by setup (and wiped only by reset):
an unlock (`LOGIN`) never writes storage at all — in particular it never
regenerates or overwrites the persisted salt; an unlock with the salt absent
transitions to the `SETUP` state with no key and no write instead of
crashing; an unlock with the salt present derives the key from the supplied
password and exactly the persisted salt; setup persists the freshly
generated salt; reset clears the salt. -/
theorem C7_salt_lifecycle (password : String) (newSalt : List Nat)
    (st : Storage) :
    ((handleAuth .LOGIN password newSalt st).1 = st) ∧
    (password ≠ "" → st.salt = none →
        handleAuth .LOGIN password newSalt st = (st, .SETUP, none)) ∧
    (password ≠ "" → ∀ s bytes, st.salt = some s → base64ToBuf s = some bytes →
        handleAuth .LOGIN password newSalt st =
          (st, .LOGIN, some (deriveKey password bytes))) ∧
    (password ≠ "" →
        (handleAuth .SETUP password newSalt st).1.salt =
            some (bufToBase64 newSalt) ∧
        (handleAuth .SETUP password newSalt st).2.2 =
            some (deriveKey password newSalt)) ∧
    handleReset.1.salt = none := by
  refine ⟨?_, ?_, ?_, ?_, rfl⟩
  · by_cases hpw : password = ""
    · simp [handleAuth, hpw]
    · cases hsalt : st.salt with
      | none => simp [handleAuth, hpw, hsalt]
      | some s =>
        cases hb : base64ToBuf s with
        | none => simp [handleAuth, hpw, hsalt, hb]
        | some bytes => simp [handleAuth, hpw, hsalt, hb]
  · intro hpw hsalt
    simp [handleAuth, hpw, hsalt]
  · intro hpw s bytes hsalt hb
    simp [handleAuth, hpw, hsalt, hb]
  · intro hpw
    constructor <;> simp [handleAuth, hpw]

theorem C7_salt_lifecycle_witness :
    handleAuth .LOGIN "pw" [9] ⟨some "AA==", none, none, none, none⟩ =
      (⟨some "AA==", none, none, none, none⟩, .LOGIN,
        some (deriveKey "pw" [0])) :=
  (C7_salt_lifecycle "pw" [9] ⟨some "AA==", none, none, none, none⟩).2.2.1
    (by decide) "AA==" [0] rfl (by decide)

theorem b64EncChars_no_colon (l : List Nat) : ':' ∉ b64EncChars l := by
  induction l using b64EncChars.induct with
  | case1 => simp [b64EncChars]
  | case2 b1 =>
    simp [b64EncChars]
    exact ⟨fun h => sextetChar_ne_colon _ h.symm,
           fun h => sextetChar_ne_colon _ h.symm⟩
  | case3 b1 b2 =>
    simp [b64EncChars]
    exact ⟨fun h => sextetChar_ne_colon _ h.symm,
           fun h => sextetChar_ne_colon _ h.symm,
           fun h => sextetChar_ne_colon _ h.symm⟩
  | case4 b1 b2 b3 rest ih =>
    simp [b64EncChars]
    refine ⟨fun h => sextetChar_ne_colon _ h.symm,
            fun h => sextetChar_ne_colon _ h.symm,
            fun h => sextetChar_ne_colon _ h.symm,
            fun h => sextetChar_ne_colon _ h.symm, ih⟩

theorem charSplit_no_colon (a : List Char) (h : ':' ∉ a) :
    charSplit a = [a] := by
  induction a with
  | nil => rfl
  | cons c l ih =>
    have hc : c ≠ ':' := fun hh => h (by simp [hh])
    have hl : ':' ∉ l := fun hh => h (by simp [hh])
    rw [charSplit, if_neg hc, ih hl]

theorem charSplit_append (a rest : List Char) (h : ':' ∉ a) :
    charSplit (a ++ ':' :: rest) = a :: charSplit rest := by
  induction a with
  | nil => simp [charSplit]
  | cons c l ih =>
    have hc : c ≠ ':' := fun hh => h (by simp [hh])
    have hl : ':' ∉ l := fun hh => h (by simp [hh])
    rw [List.cons_append, charSplit, if_neg hc, ih hl]

/-- C8: for every input text and password, the ad hoc ENCRYPT tool produces
the self-contained token `"sl1:<salt-b64>:<iv-b64>:<ciphertext-b64>"` (the
fresh salt and IV are injected), and running the ad hoc DECRYPT tool on that
token with the same password — and no stored vault state (its remaining
arguments are unused dummies) — returns the original text. -/
theorem C8_ad_hoc_token_round_trip (text password : String)
    (salt iv : List Nat) (htext : text ≠ "") (hpw : password ≠ "")
    (hsalt : ∀ b ∈ salt, b < 256) (hiv : ∀ b ∈ iv, b < 256) :
    handleProcess .ENCRYPT text password salt iv =
      some ("sl1:" ++ bufToBase64 salt ++ ":" ++ bufToBase64 iv ++ ":" ++
        bufToBase64 (gcmEncrypt (deriveKey password salt) iv (strToBuf text))) ∧
    handleProcess .DECRYPT
        ("sl1:" ++ bufToBase64 salt ++ ":" ++ bufToBase64 iv ++ ":" ++
          bufToBase64 (gcmEncrypt (deriveKey password salt) iv (strToBuf text)))
        password [] [] = some text := by
  have hdata : ("sl1:" ++ bufToBase64 salt ++ ":" ++ bufToBase64 iv ++ ":" ++
      bufToBase64 (gcmEncrypt (deriveKey password salt) iv (strToBuf text))).data
      = 's' :: 'l' :: '1' :: ':' :: (b64EncChars salt ++ ':' ::
        (b64EncChars iv ++ ':' ::
          b64EncChars (gcmEncrypt (deriveKey password salt) iv (strToBuf text)))) := by
    simp [bufToBase64, String.data_append, List.append_assoc]
  constructor
  · simp [handleProcess, htext, hpw, encryptMessage]
  · have e3 : charSplit (b64EncChars (gcmEncrypt (deriveKey password salt) iv
        (strToBuf text))) =
        [b64EncChars (gcmEncrypt (deriveKey password salt) iv (strToBuf text))] :=
      charSplit_no_colon _ (b64EncChars_no_colon _)
    have e2 : charSplit (b64EncChars iv ++ ':' ::
        b64EncChars (gcmEncrypt (deriveKey password salt) iv (strToBuf text))) =
        b64EncChars iv ::
          [b64EncChars (gcmEncrypt (deriveKey password salt) iv (strToBuf text))] := by
      rw [charSplit_append _ _ (b64EncChars_no_colon _), e3]
    have e1 : charSplit (b64EncChars salt ++ ':' :: (b64EncChars iv ++ ':' ::
        b64EncChars (gcmEncrypt (deriveKey password salt) iv (strToBuf text)))) =
        b64EncChars salt :: b64EncChars iv ::
          [b64EncChars (gcmEncrypt (deriveKey password salt) iv (strToBuf text))] := by
      rw [charSplit_append _ _ (b64EncChars_no_colon _), e2]
    have htok : ("sl1:" ++ bufToBase64 salt ++ ":" ++ bufToBase64 iv ++ ":" ++
        bufToBase64 (gcmEncrypt (deriveKey password salt) iv (strToBuf text))) ≠ "" := by
      intro hcon
      have : ("" : String).data = [] := rfl
      rw [hcon] at hdata
      rw [this] at hdata
      exact List.noConfusion hdata
    have hparts : splitColon ("sl1:" ++ bufToBase64 salt ++ ":" ++ bufToBase64 iv
        ++ ":" ++ bufToBase64 (gcmEncrypt (deriveKey password salt) iv (strToBuf text)))
        = ["sl1", bufToBase64 salt, bufToBase64 iv,
           bufToBase64 (gcmEncrypt (deriveKey password salt) iv (strToBuf text))] := by
      unfold splitColon
      rw [hdata]
      rw [charSplit, if_neg (by decide), charSplit, if_neg (by decide),
          charSplit, if_neg (by decide), charSplit, if_pos rfl, e1]
      rfl
    simp only [handleProcess, htok, hpw, false_or, if_neg, hparts]
    have hgd1 : (["sl1", bufToBase64 salt, bufToBase64 iv,
        bufToBase64 (gcmEncrypt (deriveKey password salt) iv (strToBuf text))].getD 1 "")
        = bufToBase64 salt := rfl
    rw [hgd1, base64ToBuf_bufToBase64 salt hsalt]
    have hfin := decryptMessage_encryptMessage text (deriveKey password salt) iv hiv
    simpa [encryptMessage] using hfin

theorem C8_ad_hoc_token_round_trip_witness :
    handleProcess .DECRYPT
        ("sl1:" ++ bufToBase64 [1] ++ ":" ++ bufToBase64 [2] ++ ":" ++
          bufToBase64 (gcmEncrypt (deriveKey "k" [1]) [2] (strToBuf "A")))
        "k" [] [] = some "A" :=
  (C8_ad_hoc_token_round_trip "A" "k" [1] [2] (by decide) (by decide)
    (by decide) (by decide)).2

/-- C9 counterexample: the claim states the stored cloud document has shape
`{ encryptedData: ..., lastUpdated: epoch-ms }` with `lastUpdated` a field of
the document alongside `encryptedData`. At a concrete storage state and
timestamp, the document built by `syncUpToCloud` has `encryptedData` as its
only field — `lastUpdated` is not a top-level field of the stored document. -/
theorem C9_no_top_level_lastUpdated :
    (syncUpToCloudDoc ⟨some "S", some "P", some "C", some "H", some "A"⟩
        12345).map Prod.fst = ["encryptedData"] ∧
    "lastUpdated" ∉ (syncUpToCloudDoc
        ⟨some "S", some "P", some "C", some "H", some "A"⟩ 12345).map Prod.fst := by
  constructor
  · rfl
  · intro h
    simp [syncUpToCloudDoc] at h

/-- C9 (amended): the cloud push stores, under the caller-supplied
identifier, a document whose single field `encryptedData` holds the
JSON-stringified payload; the payload — not the document — carries the four
raw blobs including the salt, plus `lastUpdated` in epoch milliseconds, and
its field list contains neither the key nor the password (the function is
built from the persisted blobs alone). -/
theorem C9_cloud_doc_shape (st : Storage) (now : Nat) :
    syncUpToCloudDoc st now =
      [("encryptedData",
        JVal.str (jsonStringifyFlat (backupPayloadFields st now)))] ∧
    (backupPayloadFields st now).map Prod.fst =
      ["profile", "contacts", "history", "salt", "lastUpdated"] ∧
    ("salt", optVal st.salt) ∈ backupPayloadFields st now ∧
    ("lastUpdated", JVal.num now) ∈ backupPayloadFields st now := by
  refine ⟨rfl, rfl, ?_, ?_⟩ <;> simp [backupPayloadFields]

/-- C10: `decryptMessage` is total at its public interface: for every
ciphertext string, IV string and key it returns a string; whenever the
`try` body throws (malformed base64 in either argument, or AES-GCM
authentication failure), the result is exactly the fixed placeholder string,
and whenever the body succeeds, the result is its plaintext — so the
`catch` branches callers wrap around `decryptMessage` can never fire. -/
theorem C10_decrypt_total (ct iv : String) (key : CryptoKeyM) :
    (decryptMessage ct iv key = decryptFailureText ∧
      ∃ e, decryptAttempt ct iv key = .error e) ∨
    (∃ pt, decryptAttempt ct iv key = .ok pt ∧
      decryptMessage ct iv key = pt) := by
  rcases h : decryptAttempt ct iv key with e | s
  · left
    exact ⟨by simp [decryptMessage, h], e, rfl⟩
  · right
    exact ⟨s, rfl, by simp [decryptMessage, h]⟩
